import Mathlib

/-!
Verification of the fireflare Firebase-token verifier (`src/index.ts`).

The TypeScript source is shallowly embedded: JSON values become the
inductive `JsValue`, the JS runtime's externals (JSON.parse, the Workers KV
cache, `fetch`, WebCrypto's importKey/verify, and the clock) become fields
of an explicit environment record `Env`, exceptions become `Except`, and
the `await`ed external effects (cache reads, fetches, cache writes) are
recorded in an explicit `Effects` trace returned next to each result.
Machine strings are modelled through their character lists (`String.data`)
so that all definitions reduce by `rfl`/`decide`.
-/

/-- A JSON-like JavaScript value (the untyped claim maps, JWK records and
fetch bodies of the source). Numbers are modelled as integers: every
numeric claim the code compares (`exp`, `iat`, `auth_time`, `max-age`)
is an integral Unix timestamp / second count. -/
inductive JsValue where
  | null : JsValue
  | bool (b : Bool) : JsValue
  | num (n : Int) : JsValue
  | str (s : String) : JsValue
  | arr (xs : List JsValue) : JsValue
  | obj (fields : List (String × JsValue)) : JsValue

/-- First-match field lookup, modelling JS property access `o[k]` on a plain
object (JSON.parse never yields duplicate keys). -/
def lookupField : List (String × JsValue) → String → Option JsValue
  | [], _ => none
  | (k', v) :: rest, k => if k' = k then some v else lookupField rest k

/-- JS property access `value[key]`: `some v` models the property's value,
`none` models `undefined` (absent property, or access on a non-object
primitive/array, whose named properties are all absent here). -/
def getProp : JsValue → String → Option JsValue
  | .obj fields, k => lookupField fields k
  | _, _ => none

/-- JS truthiness of a value. Arrays and objects are always truthy. -/
def jsTruthy : JsValue → Bool
  | .null => false
  | .bool b => b
  | .num n => decide (n ≠ 0)
  | .str s => decide (s ≠ "")
  | .arr _ => true
  | .obj _ => true

/-- Truthiness of a possibly-`undefined` value. -/
def jsTruthyOpt : Option JsValue → Bool
  | none => false
  | some v => jsTruthy v

/-- `Number(s)` restricted to the integral model: trimmed empty string is 0,
an optionally signed digit string is its value, anything else is NaN
(`none`). Used only by JS loose equality's string/number coercion. -/
def digitsToNat? (l : List Char) : Option Nat :=
  if l ≠ [] ∧ l.all Char.isDigit then
    some (l.foldl (fun a c => a * 10 + (c.toNat - 48)) 0)
  else none

def isJsSpace (c : Char) : Bool :=
  c = ' ' ∨ c = '\t' ∨ c = '\n' ∨ c = '\r' ∨ c = '\x0c' ∨ c = '\x0b'

def trimChars (l : List Char) : List Char :=
  ((l.dropWhile isJsSpace).reverse.dropWhile isJsSpace).reverse

def strToNum? (s : String) : Option Int :=
  let t := trimChars s.data
  if t = [] then some 0
  else
    match t with
    | '-' :: rest => (digitsToNat? rest).map (fun n => -(n : Int))
    | '+' :: rest => (digitsToNat? rest).map (fun n => (n : Int))
    | _ => (digitsToNat? t).map (fun n => (n : Int))

def boolToNum (b : Bool) : Int := if b then 1 else 0

/-- JS strict equality `===` on defined values. Objects and arrays compare
by reference; the two sides compared in this code always come from separate
JSON parses, so distinct heap objects — modelled as `false`. -/
def jsEqStrict : JsValue → JsValue → Bool
  | .str a, .str b => decide (a = b)
  | .num a, .num b => decide (a = b)
  | .bool a, .bool b => a = b
  | .null, .null => true
  | _, _ => false

/-- JS loose equality `==` on defined values (used by the cached-branch kid
lookup `x.kid == kid`): same-type like `===`, number/string and boolean
coercions as in the spec; object/array operands compare by reference
(distinct heap objects here), modelled as `false`. -/
def jsEqLoose : JsValue → JsValue → Bool
  | .str a, .str b => decide (a = b)
  | .num a, .num b => decide (a = b)
  | .bool a, .bool b => a = b
  | .null, .null => true
  | .num a, .str s => strToNum? s = some a
  | .str s, .num a => strToNum? s = some a
  | .bool b, .num a => decide (boolToNum b = a)
  | .num a, .bool b => decide (boolToNum b = a)
  | .bool b, .str s => strToNum? s = some (boolToNum b)
  | .str s, .bool b => strToNum? s = some (boolToNum b)
  | _, _ => false

/-- `===` lifted to possibly-`undefined` operands. -/
def jsEqStrictOpt : Option JsValue → Option JsValue → Bool
  | none, none => true
  | some a, some b => jsEqStrict a b
  | _, _ => false

/-- `==` lifted to possibly-`undefined` operands (`undefined == null`). -/
def jsEqLooseOpt : Option JsValue → Option JsValue → Bool
  | none, none => true
  | none, some .null => true
  | some .null, none => true
  | some a, some b => jsEqLoose a b
  | _, _ => false

/-! ## Errors raised inside `decodeJwt` -/

inductive JwtErr where
  /-- A property/method access on `undefined` (`parts[i]` out of range). -/
  | typeError : JwtErr
  /-- The `default:` branch of `decodeBase64`'s padding switch. -/
  | illegalBase64 : JwtErr
  /-- `atob` rejected the input (bad length or non-alphabet character). -/
  | invalidChar : JwtErr
  /-- `decodeURIComponent` rejected a non-UTF-8 byte sequence. -/
  | uriError : JwtErr
  /-- `JSON.parse` failed. -/
  | jsonError : JwtErr
deriving DecidableEq

/-! ## `atob` (WHATWG forgiving-base64 decode to a binary string) -/

def b64CharVal (c : Char) : Option Nat :=
  if 'A' ≤ c ∧ c ≤ 'Z' then some (c.toNat - 65)
  else if 'a' ≤ c ∧ c ≤ 'z' then some (c.toNat - 71)
  else if '0' ≤ c ∧ c ≤ '9' then some (c.toNat + 4)
  else if c = '+' then some 62
  else if c = '/' then some 63
  else none

/-- Decode a run of 6-bit values into bytes, discarding leftover bits of a
final 2- or 3-value chunk as forgiving-base64 does. -/
def b64Chunks : List Nat → List Nat
  | a :: b :: c :: d :: rest =>
      (a * 4 + b / 16) :: ((b % 16) * 16 + c / 4) :: ((c % 4) * 64 + d) :: b64Chunks rest
  | [a, b] => [a * 4 + b / 16]
  | [a, b, c] => [a * 4 + b / 16, (b % 16) * 16 + c / 4]
  | _ => []

/-- Strip one or two trailing `=` when the length is a multiple of 4. -/
def stripPad (l : List Char) : List Char :=
  if l.length % 4 = 0 then
    match l.reverse with
    | '=' :: '=' :: rest => rest.reverse
    | '=' :: rest => rest.reverse
    | _ => l
  else l

/-- The JS builtin `atob`: forgiving-base64 decode, producing the "binary
string" whose characters are the decoded bytes. -/
def atob (s : String) : Except JwtErr String :=
  let data := (s.data.filter (fun c => !isJsSpace c))
  let data := stripPad data
  if data.length % 4 = 1 then .error .invalidChar
  else
    match data.mapM b64CharVal with
    | none => .error .invalidChar
    | some vals => .ok (String.mk ((b64Chunks vals).map Char.ofNat))

/-! ## UTF-8 (the JS idioms `decodeURIComponent(escape(s))` and
`new TextEncoder().encode(s)`) -/

def isUtf8Cont (b : Nat) : Bool := 0x80 ≤ b ∧ b < 0xC0

/-- Strict UTF-8 decode of a byte list into characters; `none` on any
malformed, overlong, surrogate or out-of-range sequence (the cases where
`decodeURIComponent` throws `URIError`). -/
def utf8Dec : List Nat → Option (List Char)
  | [] => some []
  | b :: rest =>
      if b < 0x80 then (utf8Dec rest).map (fun cs => Char.ofNat b :: cs)
      else if b < 0xC2 then none
      else if b < 0xE0 then
        match rest with
        | c :: r2 =>
            if isUtf8Cont c then
              (utf8Dec r2).map (fun cs => Char.ofNat ((b - 0xC0) * 64 + (c - 0x80)) :: cs)
            else none
        | _ => none
      else if b < 0xF0 then
        match rest with
        | c :: d :: r2 =>
            let cp := (b - 0xE0) * 4096 + (c - 0x80) * 64 + (d - 0x80)
            if isUtf8Cont c ∧ isUtf8Cont d ∧ 0x800 ≤ cp ∧ (cp < 0xD800 ∨ 0xDFFF < cp) then
              (utf8Dec r2).map (fun cs => Char.ofNat cp :: cs)
            else none
        | _ => none
      else if b < 0xF5 then
        match rest with
        | c :: d :: e :: r2 =>
            let cp := (b - 0xF0) * 262144 + (c - 0x80) * 4096 + (d - 0x80) * 64 + (e - 0x80)
            if isUtf8Cont c ∧ isUtf8Cont d ∧ isUtf8Cont e ∧ 0x10000 ≤ cp ∧ cp ≤ 0x10FFFF then
              (utf8Dec r2).map (fun cs => Char.ofNat cp :: cs)
            else none
        | _ => none
      else none

/-- `decodeURIComponent(escape(s))`: reinterpret a binary string's byte
codes as UTF-8 text, throwing `URIError` when they are not valid UTF-8. -/
def utf8Reinterpret (s : String) : Except JwtErr String :=
  match utf8Dec (s.data.map Char.toNat) with
  | some cs => .ok (String.mk cs)
  | none => .error .uriError

/-- One character of `new TextEncoder().encode` (UTF-8 encode). -/
def utf8EncodeChar (c : Char) : List Nat :=
  let n := c.toNat
  if n < 0x80 then [n]
  else if n < 0x800 then [0xC0 + n / 64, 0x80 + n % 64]
  else if n < 0x10000 then [0xE0 + n / 4096, 0x80 + (n / 64) % 64, 0x80 + n % 64]
  else [0xF0 + n / 262144, 0x80 + (n / 4096) % 64, 0x80 + (n / 64) % 64, 0x80 + n % 64]

/-- `new TextEncoder().encode(s)`: the UTF-8 bytes of `s`. -/
def utf8Encode (s : String) : List Nat := (s.data.map utf8EncodeChar).flatten

/-! ## `decodeBase64` and `decodeJwt` (src/index.ts lines 96–132) -/

/-- `str.replace(/a/g, b)` for a single-character pattern. -/
def replaceAllChar (s : String) (a b : Char) : String :=
  String.mk (s.data.map (fun c => if c = a then b else c))

/-- The inner `decodeBase64` of `decodeJwt`: translate the URL-safe
alphabet back (`_`→`/` then `-`→`+`), reconstruct padding from
`str.length % 4`, and hand the result to `atob`; remainder 1 is the
`default:` branch throwing `'Illegal base64url string!'`.
(`str.length` counts UTF-16 units in JS; the model counts characters,
which agrees on all Basic-Multilingual-Plane inputs.) -/
def decodeBase64 (str : String) : Except JwtErr String :=
  let result := replaceAllChar (replaceAllChar str '_' '/') '-' '+'
  match str.data.length % 4 with
  | 0 => atob result
  | 2 => atob (result ++ "==")
  | 3 => atob (result ++ "=")
  | _ => .error .illegalBase64

/-- `token.split('.')` on character lists: every maximal run between dots,
with empty runs kept (JS semantics: `''.split('.') = ['']`). -/
def splitOnDot : List Char → List (List Char)
  | [] => [[]]
  | c :: rest =>
      if c = '.' then [] :: splitOnDot rest
      else
        match splitOnDot rest with
        | [] => [[c]]
        | g :: gs => (c :: g) :: gs

/-- JS array indexing `parts[i]` followed by use as a string: an
out-of-range index yields `undefined`, whose first method access inside
`decodeBase64` throws a `TypeError`. -/
def jsIndex (parts : List String) (i : Nat) : Except JwtErr String :=
  match parts.get? i with
  | some s => .ok s
  | none => .error .typeError

/-- The decoded token record (`decodeJwt`'s return object). -/
structure DecodedToken where
  header : JsValue
  payload : JsValue
  /-- The binary string `decodeBase64(parts[2])`. -/
  signature : String
  rawHeader : String
  rawPayload : String
  rawSignature : String

def liftParse (p : String → Except Unit JsValue) (s : String) : Except JwtErr JsValue :=
  match p s with
  | .ok v => .ok v
  | .error _ => .error .jsonError

/-- `decodeJwt` (src/index.ts lines 96–132). `jsonParse` is the JS builtin
`JSON.parse`, an external of the runtime, passed in as an oracle. -/
def decodeJwt (jsonParse : String → Except Unit JsValue) (token : String) :
    Except JwtErr DecodedToken := do
  let parts := (splitOnDot token.data).map String.mk
  let s0 ← jsIndex parts 0
  let hbin ← decodeBase64 s0
  let header ← liftParse jsonParse hbin
  let s1 ← jsIndex parts 1
  let pbin ← decodeBase64 s1
  let ptxt ← utf8Reinterpret pbin
  let payload ← liftParse jsonParse ptxt
  let s2 ← jsIndex parts 2
  let sig ← decodeBase64 s2
  .ok ⟨header, payload, sig, s0, s1, s2⟩

/-! ## Claim predicates (src/index.ts lines 60–80) -/

/-- `Equals(key, expected)`: `expected === claims[key]` with `expected` a
string, so true exactly when the claim is a string strictly equal to it. -/
def Equals (key : String) (expected : String) : JsValue → Bool := fun claims =>
  match getProp claims key with
  | some (.str s) => decide (expected = s)
  | _ => false

/-- `InFuture(key)`: the claim is a number strictly greater than the
current Unix time in seconds. The clock read
`Math.round(new Date().getTime() / 1000)` is the explicit `now`. -/
def InFuture (now : Int) (key : String) : JsValue → Bool := fun claims =>
  match getProp claims key with
  | some (.num v) => decide (now < v)
  | _ => false

/-- `InPast(key)`: the claim is a number less than or equal to `now`. -/
def InPast (now : Int) (key : String) : JsValue → Bool := fun claims =>
  match getProp claims key with
  | some (.num v) => decide (v ≤ now)
  | _ => false

/-- `NotEmpty(key)`: the claim is a string (primitive or boxed — the model
has no boxing) different from `""`. -/
def NotEmpty (key : String) : JsValue → Bool := fun claims =>
  match getProp claims key with
  | some (.str s) => decide (s ≠ "")
  | _ => false

/-- `validateClaims` (src/index.ts line 78): `conditions.every(...)`. -/
def validateClaims (claims : JsValue) (conditions : List (JsValue → Bool)) : Bool :=
  conditions.all (fun cond => cond claims)

/-! ## The external runtime capabilities and the effect trace -/

/-- One `cache.put` call as issued by `cacheKey`: the fixed cache key, the
stored key list (the source stores `JSON.stringify(data)`; the model keeps
the value itself) and the `expirationTtl` option (`none` = the option was
`undefined`, i.e. no explicit TTL). -/
structure PutCall where
  key : String
  value : JsValue
  expirationTtl : Option Int

/-- Every `fetch` response this code inspects: whether the parsed JSON body
has a (truthy, array) `keys` field, and the `cache-control` header
(`none` models `headers.get` returning `null`). -/
structure FetchResp where
  keys : Option (List JsValue)
  cacheControl : Option String

/-- The injected externals of one verification call: the clock, JSON.parse,
the KV cache's stored key set (`cacheGet`: `.error` = the read rejects,
`.ok none` = no entry), the network fetch, the cache write's outcome, and
WebCrypto's `importKey`/`verify` (a key handle is an opaque `Nat`;
`importKey` receives the possibly-`undefined` matched JWK record). -/
structure Env where
  now : Int
  jsonParse : String → Except Unit JsValue
  cacheGet : Except Unit (Option (List JsValue))
  fetch : Except Unit FetchResp
  putResult : Except Unit Unit
  importKey : Option JsValue → Except Unit Nat
  verify : Nat → List Nat → List Nat → Bool

/-- The observable external actions of one call: how many times the token
was decoded, the cache read, the network fetched, and every attempted
cache write. -/
structure Effects where
  decodes : Nat
  cacheGets : Nat
  fetches : Nat
  putCalls : List PutCall

def noEffects : Effects := ⟨0, 0, 0, []⟩

/-! ## Key cache (src/index.ts lines 135–166) -/

/-- `parseInt` on the digits captured by `/max-age=(\d+)/`: the regex
scans for an occurrence of `max-age=` followed by at least one digit
(`max-age=` has no self-overlap, so left-to-right non-overlapping
occurrence splitting is the exact regex scan). -/
def natOfDigits (l : List Char) : Nat :=
  l.foldl (fun a c => a * 10 + (c.toNat - 48)) 0

def splitOnSeqFuel (pat : List Char) : Nat → List Char → List (List Char)
  | _, [] => [[]]
  | 0, l => [l]
  | fuel + 1, c :: rest =>
      if pat.isPrefixOf (c :: rest) then
        [] :: splitOnSeqFuel pat fuel (rest.drop (pat.length - 1))
      else
        match splitOnSeqFuel pat fuel rest with
        | [] => [[c]]
        | g :: gs => (c :: g) :: gs

/-- Non-overlapping left-to-right occurrence split (JS `String.split` on a
plain substring). -/
def splitOnSeq (pat l : List Char) : List (List Char) :=
  splitOnSeqFuel pat l.length l

/-- `(header || "").match(/max-age=(\d+)/)` followed by
`parseInt(matches[1])`. -/
def findMaxAge (s : String) : Option Nat :=
  match splitOnSeq "max-age=".data s.data with
  | [] => none
  | _ :: tails =>
      (tails.find? (fun part => !(part.takeWhile Char.isDigit).isEmpty)).map
        (fun part => natOfDigits (part.takeWhile Char.isDigit))

/-- `cacheKey` (src/index.ts lines 158–166): the list of put calls it
issues. The default parameter `ttl: number = 3600` applies when the caller
passed `undefined`; the entry carries `expirationTtl: ttl > 0 ? ttl :
undefined`; nothing is stored for falsy data or data with a truthy
`error` property. -/
def cacheKey (data : JsValue) (ttl : Option Int) : List PutCall :=
  let t := ttl.getD 3600
  if jsTruthy data && !jsTruthyOpt (getProp data "error") then
    [⟨"google_pk", data, if 0 < t then some t else none⟩]
  else []

inductive PkErr where
  | cacheGetError : PkErr
  | fetchError : PkErr
  | putError : PkErr
deriving DecidableEq

/-- `getGooglePk` (src/index.ts lines 135–156), with its effect trace.
`kid` is the possibly-`undefined` value of `decodedToken.header.kid`.
The cached branch compares `x.kid == kid` (loose), the freshly fetched
branch `x.kid === kid` (strict), as the source does. -/
def getGooglePk (env : Env) (kid : Option JsValue) :
    Except PkErr (Option JsValue) × Effects :=
  match env.cacheGet with
  | .error _ => (.error .cacheGetError, ⟨0, 1, 0, []⟩)
  | .ok (some key) =>
      (.ok (key.find? (fun x => jsEqLooseOpt (getProp x "kid") kid)), ⟨0, 1, 0, []⟩)
  | .ok none =>
      match env.fetch with
      | .error _ => (.error .fetchError, ⟨0, 1, 1, []⟩)
      | .ok resp =>
          match resp.keys with
          | some keys =>
              let maxAge : Option Int :=
                (findMaxAge (resp.cacheControl.getD "")).map (fun n => (n : Int) - 120)
              let puts := cacheKey (.arr keys) maxAge
              if puts.isEmpty then
                (.ok (keys.find? (fun x => jsEqStrictOpt (getProp x "kid") kid)),
                 ⟨0, 1, 1, []⟩)
              else
                match env.putResult with
                | .error _ => (.error .putError, ⟨0, 1, 1, puts⟩)
                | .ok _ =>
                    (.ok (keys.find? (fun x => jsEqStrictOpt (getProp x "kid") kid)),
                     ⟨0, 1, 1, puts⟩)
          | none => (.ok none, ⟨0, 1, 1, []⟩)

/-! ## The orchestrator `auth` (src/index.ts lines 10–58) -/

inductive AuthErr where
  /-- `throw ({message: 'No token provided'})` on a falsy token. -/
  | noToken : AuthErr
  /-- Any exception escaping `decodeJwt`. -/
  | malformed (e : JwtErr) : AuthErr
  /-- `throw ({message: 'Claims not valid', ...})`. -/
  | claimsInvalid : AuthErr
  /-- A rejection from the key-cache layer (cache read, fetch or put). -/
  | pk (e : PkErr) : AuthErr
  /-- `crypto.subtle.importKey` rejected (malformed or missing key). -/
  | importError : AuthErr
  /-- `throw ({message: 'Signature not valid', ...})`. -/
  | sigInvalid : AuthErr
deriving DecidableEq

/-- The fixed standard payload checks of `auth` (src/index.ts lines 20–26). -/
def stdPayloadChecks (now : Int) (projectId : String) : List (JsValue → Bool) :=
  [InFuture now "exp", InPast now "iat", Equals "aud" projectId,
   Equals "iss" ("https://securetoken.google.com/" ++ projectId),
   NotEmpty "sub", InPast now "auth_time"]

/-- `encoder.encode([raw.header, raw.payload].join('.'))`. -/
def signedData (d : DecodedToken) : List Nat :=
  utf8Encode (d.rawHeader ++ "." ++ d.rawPayload)

/-- `new Uint8Array(Array.from(signature).map(c => c.charCodeAt(0)))`. -/
def sigBytes (d : DecodedToken) : List Nat := d.signature.data.map Char.toNat

/-- The body of `auth`'s `try` block: `.ok` the returned payload claims,
`.error` the thrown value, next to the effect trace. -/
def authTry (env : Env) (projectId : String) (token : Option String)
    (claimChecks : List (JsValue → Bool)) : Except AuthErr JsValue × Effects :=
  match token with
  | none => (.error .noToken, noEffects)
  | some t =>
      if t = "" then (.error .noToken, noEffects)
      else
        match decodeJwt env.jsonParse t with
        | .error e => (.error (.malformed e), ⟨1, 0, 0, []⟩)
        | .ok d =>
            if !validateClaims d.payload (stdPayloadChecks env.now projectId)
                || !validateClaims d.header [Equals "alg" "RS256"]
                || !validateClaims d.payload claimChecks then
              (.error .claimsInvalid, ⟨1, 0, 0, []⟩)
            else
              let pkr := getGooglePk env (getProp d.header "kid")
              let eff : Effects := ⟨1, pkr.2.cacheGets, pkr.2.fetches, pkr.2.putCalls⟩
              match pkr.1 with
              | .error e => (.error (.pk e), eff)
              | .ok jwk =>
                  match env.importKey jwk with
                  | .error _ => (.error .importError, eff)
                  | .ok key =>
                      if env.verify key (sigBytes d) (signedData d) then
                        (.ok d.payload, eff)
                      else (.error .sigInvalid, eff)

/-- `auth` (src/index.ts lines 10–58): the whole body runs inside
`try { ... } catch (e) { console.error(...); return undefined; }`, so the
public result is `authTry`'s, with every thrown value collapsed to
`undefined` (`none`). -/
def auth (env : Env) (projectId : String) (token : Option String)
    (claimChecks : List (JsValue → Bool)) : Option JsValue × Effects :=
  let r := authTry env projectId token claimChecks
  (r.1.toOption, r.2)

/-! ## Statement-side definitions and concrete instances for witnesses -/

/-- The single-character translation `-`→`+`, `_`→`/` that the two global
`replace` calls of `decodeBase64` amount to. -/
def trChar (c : Char) : Char :=
  if c = '_' then '/' else if c = '-' then '+' else c

/-- The TTL actually attached to a cached key set, as a function of the
`cache-control` header: `max-age=N` present with `N - 120 > 0` gives
`N - 120`; present with `N - 120 ≤ 0` gives no explicit TTL; absent or
non-matching gives the explicit default `3600`. -/
def ttlModel (cc : Option String) : Option Int :=
  match findMaxAge (cc.getD "") with
  | some n => if 0 < (n : Int) - 120 then some ((n : Int) - 120) else none
  | none => some 3600

/-- A claim map passing every standard check at `now = 0` for project
`"p"` (serves as both header and payload in concrete runs). -/
def megaClaims : JsValue :=
  .obj [("alg", .str "RS256"), ("kid", .str "k1"), ("exp", .num 1),
        ("iat", .num 0), ("aud", .str "p"),
        ("iss", .str "https://securetoken.google.com/p"),
        ("sub", .str "s"), ("auth_time", .num 0)]

/-- A provider key record whose `kid` is `"k1"`. -/
def jwk1 : JsValue := .obj [("kid", .str "k1")]

/-- `decodeJwt`'s result on `"e30.e30.e30"` under a parser that returns
`megaClaims` (each `"e30"` base64url-decodes to the two-byte string
`"\x7b\x7d"`). -/
def dTokOk : DecodedToken :=
  ⟨megaClaims, megaClaims, "\x7b\x7d", "e30", "e30", "e30"⟩

/-- An environment in which verification fully succeeds: the parser yields
`megaClaims`, the cache holds `[jwk1]`, key import and signature
verification succeed. -/
def envOk : Env :=
  { now := 0, jsonParse := fun _ => .ok megaClaims,
    cacheGet := .ok (some [jwk1]), fetch := .error (), putResult := .ok (),
    importKey := fun _ => .ok 0, verify := fun _ _ _ => true }

/-- `envOk` with the clock moved past the token's `exp`. -/
def envExpired : Env :=
  { now := 10, jsonParse := fun _ => .ok megaClaims,
    cacheGet := .ok (some [jwk1]), fetch := .error (), putResult := .ok (),
    importKey := fun _ => .ok 0, verify := fun _ _ _ => true }

/-- An environment with an empty cache and a fetch that answers with one
key and no `cache-control` header. -/
def envFetch : Env :=
  { now := 0, jsonParse := fun _ => .ok megaClaims,
    cacheGet := .ok none, fetch := .ok ⟨some [jwk1], none⟩,
    putResult := .ok (), importKey := fun _ => .ok 0,
    verify := fun _ _ _ => true }

/-- Like `envFetch` but the fetch response carries
`cache-control: public, max-age=3600`. -/
def envFetchCC : Env :=
  { now := 0, jsonParse := fun _ => .ok megaClaims,
    cacheGet := .ok none, fetch := .ok ⟨some [jwk1], some "public, max-age=3600"⟩,
    putResult := .ok (), importKey := fun _ => .ok 0,
    verify := fun _ _ _ => true }

/-- A claim map whose `exp` claim has the wrong type for every standard
predicate. -/
def oddClaims : JsValue := .obj [("exp", .bool true)]

/-! ## General lemmas about the embedding -/

theorem except_toOption_eq_some {ε α : Type _} (x : Except ε α) (a : α) :
    x.toOption = some a ↔ x = .ok a := by
  cases x <;> simp [Except.toOption]

theorem except_bind_ok {ε α β : Type _} (x : Except ε α) (f : α → Except ε β) (b : β) :
    (x >>= f) = Except.ok b ↔ ∃ a, x = .ok a ∧ f a = .ok b := by
  cases x <;> simp [Bind.bind, Except.bind]

theorem jsIndex_ok (parts : List String) (i : Nat) (s : String) :
    jsIndex parts i = .ok s ↔ parts.get? i = some s := by
  unfold jsIndex; cases parts.get? i <;> simp

/-- A successful `decodeJwt` run determines each segment and each decoded
field: the three raw segments are the token's split at positions 0, 1, 2,
the header and payload are the JSON parses of the base64url-decoded first
and second segments (the payload after UTF-8 reinterpretation), and the
signature is the base64url decode of the third. -/
theorem decodeJwt_ok_structure (p : String → Except Unit JsValue) (t : String)
    (d : DecodedToken) (h : decodeJwt p t = .ok d) :
    ((splitOnDot t.data).map String.mk).get? 0 = some d.rawHeader ∧
    ((splitOnDot t.data).map String.mk).get? 1 = some d.rawPayload ∧
    ((splitOnDot t.data).map String.mk).get? 2 = some d.rawSignature ∧
    (∃ hbin, decodeBase64 d.rawHeader = .ok hbin ∧ liftParse p hbin = .ok d.header) ∧
    (∃ pbin ptxt, decodeBase64 d.rawPayload = .ok pbin ∧
        utf8Reinterpret pbin = .ok ptxt ∧ liftParse p ptxt = .ok d.payload) ∧
    decodeBase64 d.rawSignature = .ok d.signature := by
  simp only [decodeJwt, except_bind_ok, jsIndex_ok] at h
  obtain ⟨s0, hg0, hbin, hb0, hdr, hp0, s1, hg1, pbin, hb1, ptxt, hu, pl, hp1,
    s2, hg2, sig, hb2, hok⟩ := h
  cases hok
  exact ⟨hg0, hg1, hg2, ⟨hbin, hb0, hp0⟩, ⟨pbin, ptxt, hb1, hu, hp1⟩, hb2⟩

set_option maxRecDepth 4000 in
/-- `authTry` succeeds exactly when the token is present and nonempty,
decodes, passes all three claim validations, yields an imported key from
the cache layer, and its signature verifies — and then the result is the
decoded payload. -/
theorem authTry_ok_iff (env : Env) (pid : String) (token : Option String)
    (checks : List (JsValue → Bool)) (m : JsValue) :
    (authTry env pid token checks).1 = .ok m ↔
    ∃ t d jwk key,
      token = some t ∧ ¬t = "" ∧
      decodeJwt env.jsonParse t = .ok d ∧
      validateClaims d.payload (stdPayloadChecks env.now pid) = true ∧
      validateClaims d.header [Equals "alg" "RS256"] = true ∧
      validateClaims d.payload checks = true ∧
      (getGooglePk env (getProp d.header "kid")).1 = .ok jwk ∧
      env.importKey jwk = .ok key ∧
      env.verify key (sigBytes d) (signedData d) = true ∧
      m = d.payload := by
  cases token with
  | none => simp [authTry]
  | some t =>
    by_cases ht : t = ""
    · subst ht; simp [authTry]
    · cases hdec : decodeJwt env.jsonParse t with
      | error e => simp [authTry, ht, hdec]
      | ok d =>
        by_cases h1 : validateClaims d.payload (stdPayloadChecks env.now pid)
        · by_cases h2 : validateClaims d.header [Equals "alg" "RS256"]
          · by_cases h3 : validateClaims d.payload checks
            · cases hpk : (getGooglePk env (getProp d.header "kid")).1 with
              | error e =>
                  simp [authTry, ht, hdec, h1, h2, h3, hpk]
              | ok jwk =>
                  cases himp : env.importKey jwk with
                  | error e => simp [authTry, ht, hdec, h1, h2, h3, hpk, himp]
                  | ok key =>
                      by_cases hver : env.verify key (sigBytes d) (signedData d)
                      · simp [authTry, ht, hdec, h1, h2, h3, hpk, himp, hver]
                        exact eq_comm
                      · simp [authTry, ht, hdec, h1, h2, h3, hpk, himp, hver]
            · simp [authTry, ht, hdec, h1, h2, h3]
          · simp [authTry, ht, hdec, h1, h2]
        · simp [authTry, ht, hdec, h1]

theorem validateClaims_true_iff (claims : JsValue) (l : List (JsValue → Bool)) :
    validateClaims claims l = true ↔ ∀ c ∈ l, c claims = true := by
  simp [validateClaims, List.all_eq_true]

/-! ## The claims -/

/-- Claim C1: `auth` returns a claim map exactly when the token is present
and nonempty, decodes into a `DecodedToken`, passes every fixed standard
payload check, the fixed header `alg` check and every caller-supplied
check, the key layer produces a JWK that imports, and the signature
verifies over the raw header+payload bytes — and the returned map is the
decoded payload: the JSON parse of the UTF-8 reinterpretation of the
base64url-decoded second token segment. In every other case the result is
`none`; verification is all-or-nothing. -/
theorem auth_returns_exactly_verified_claims (env : Env) (pid : String)
    (token : Option String) (checks : List (JsValue → Bool)) (m : JsValue) :
    (auth env pid token checks).1 = some m ↔
    ∃ t d jwk key,
      token = some t ∧ ¬t = "" ∧
      decodeJwt env.jsonParse t = .ok d ∧
      (∃ pbin ptxt,
        ((splitOnDot t.data).map String.mk).get? 1 = some d.rawPayload ∧
        decodeBase64 d.rawPayload = .ok pbin ∧
        utf8Reinterpret pbin = .ok ptxt ∧
        liftParse env.jsonParse ptxt = .ok d.payload) ∧
      validateClaims d.payload (stdPayloadChecks env.now pid) = true ∧
      validateClaims d.header [Equals "alg" "RS256"] = true ∧
      validateClaims d.payload checks = true ∧
      (getGooglePk env (getProp d.header "kid")).1 = .ok jwk ∧
      env.importKey jwk = .ok key ∧
      env.verify key (sigBytes d) (signedData d) = true ∧
      m = d.payload := by
  rw [show (auth env pid token checks).1 = ((authTry env pid token checks).1).toOption
      from rfl, except_toOption_eq_some, authTry_ok_iff]
  constructor
  · rintro ⟨t, d, jwk, key, htok, ht, hdec, h1, h2, h3, hpk, himp, hver, hm⟩
    obtain ⟨-, hg1, -, -, hprov, -⟩ := decodeJwt_ok_structure _ _ _ hdec
    obtain ⟨pbin, ptxt, hb, hu, hp⟩ := hprov
    exact ⟨t, d, jwk, key, htok, ht, hdec, ⟨pbin, ptxt, hg1, hb, hu, hp⟩,
      h1, h2, h3, hpk, himp, hver, hm⟩
  · rintro ⟨t, d, jwk, key, htok, ht, hdec, -, h1, h2, h3, hpk, himp, hver, hm⟩
    exact ⟨t, d, jwk, key, htok, ht, hdec, h1, h2, h3, hpk, himp, hver, hm⟩

/-- Claim C1, witnessed: a full successful verification run on the
concrete token `"e30.e30.e30"` in `envOk`, via the right-to-left
direction of the characterization. -/
theorem auth_returns_exactly_verified_claims_witness :
    (auth envOk "p" (some "e30.e30.e30") []).1 = some megaClaims :=
  (auth_returns_exactly_verified_claims envOk "p" (some "e30.e30.e30") [] megaClaims).mpr
    ⟨"e30.e30.e30", dTokOk, some jwk1, 0, rfl, by decide, rfl,
     ⟨"\x7b\x7d", "\x7b\x7d", rfl, rfl, rfl, rfl⟩, rfl, rfl, rfl, rfl, rfl, rfl, rfl⟩

/-- Claim C2: `auth` never propagates a failure — it is the `try` body
with every thrown value (`noToken`, malformed token, invalid claims,
cache/fetch/put errors, key-import failure, signature mismatch) collapsed
to `none`, and it returns `some` only when the body succeeded. In the
embedding, totality of `auth` is the absence of uncaught exceptions. -/
theorem auth_normalizes_all_failures (env : Env) (pid : String) (token : Option String)
    (checks : List (JsValue → Bool)) :
    (auth env pid token checks).1 = ((authTry env pid token checks).1).toOption ∧
    (∀ e, (authTry env pid token checks).1 = .error e →
      (auth env pid token checks).1 = none) ∧
    (∀ m, (auth env pid token checks).1 = some m →
      (authTry env pid token checks).1 = .ok m) := by
  refine ⟨rfl, ?_, ?_⟩
  · intro e he
    show ((authTry env pid token checks).1).toOption = none
    rw [he]; rfl
  · intro m hm
    exact (except_toOption_eq_some _ _).1 hm

/-- Claim C2, witnessed: the missing-token failure is thrown inside the
body and normalized to `none` by `auth`. -/
theorem auth_normalizes_all_failures_witness :
    (authTry envOk "p" none []).1 = .error .noToken ∧
    (auth envOk "p" none []).1 = none :=
  ⟨rfl, (auth_normalizes_all_failures envOk "p" none []).2.1 .noToken rfl⟩

/-- Claim C3: if any one of the fixed standard checks fails on the decoded
token — `exp` not in the future, `iat` not in the past, `aud` ≠ projectId,
`iss` ≠ `https://securetoken.google.com/{projectId}`, `sub` empty or not a
string, `auth_time` not in the past, or header `alg` ≠ `"RS256"` — then
`auth` returns `none`. The environment (in particular its signature
verifier) is arbitrary, so this holds even when the signature would
verify. -/
theorem std_check_failure_rejects (env : Env) (pid : String)
    (checks : List (JsValue → Bool)) (t : String) (d : DecodedToken)
    (hdec : decodeJwt env.jsonParse t = .ok d)
    (hfail : InFuture env.now "exp" d.payload = false ∨
      InPast env.now "iat" d.payload = false ∨
      Equals "aud" pid d.payload = false ∨
      Equals "iss" ("https://securetoken.google.com/" ++ pid) d.payload = false ∨
      NotEmpty "sub" d.payload = false ∨
      InPast env.now "auth_time" d.payload = false ∨
      Equals "alg" "RS256" d.header = false) :
    (auth env pid (some t) checks).1 = none := by
  cases hres : (auth env pid (some t) checks).1 with
  | none => rfl
  | some m =>
    exfalso
    rw [show (auth env pid (some t) checks).1 = ((authTry env pid (some t) checks).1).toOption
        from rfl, except_toOption_eq_some, authTry_ok_iff] at hres
    obtain ⟨t', d', jwk, key, htok, ht, hdec', h1, h2, h3, -⟩ := hres
    obtain rfl : t' = t := (Option.some.inj htok).symm
    obtain rfl : d' = d := by rw [hdec] at hdec'; exact (Except.ok.inj hdec').symm
    have hall := (validateClaims_true_iff _ _).1 h1
    have halg := (validateClaims_true_iff _ _).1 h2
    rcases hfail with hf | hf | hf | hf | hf | hf | hf
    · have := hall (InFuture env.now "exp") (by simp [stdPayloadChecks])
      rw [hf] at this; exact Bool.false_ne_true this
    · have := hall (InPast env.now "iat") (by simp [stdPayloadChecks])
      rw [hf] at this; exact Bool.false_ne_true this
    · have := hall (Equals "aud" pid) (by simp [stdPayloadChecks])
      rw [hf] at this; exact Bool.false_ne_true this
    · have := hall (Equals "iss" ("https://securetoken.google.com/" ++ pid))
        (by simp [stdPayloadChecks])
      rw [hf] at this; exact Bool.false_ne_true this
    · have := hall (NotEmpty "sub") (by simp [stdPayloadChecks])
      rw [hf] at this; exact Bool.false_ne_true this
    · have := hall (InPast env.now "auth_time") (by simp [stdPayloadChecks])
      rw [hf] at this; exact Bool.false_ne_true this
    · have := halg (Equals "alg" "RS256") (by simp)
      rw [hf] at this; exact Bool.false_ne_true this

/-- Claim C3, witnessed: in `envExpired` the clock sits past the token's
`exp`, the signature verifier answers `true` for everything, and `auth`
still rejects. -/
theorem std_check_failure_rejects_witness :
    (auth envExpired "p" (some "e30.e30.e30") []).1 = none :=
  std_check_failure_rejects envExpired "p" [] "e30.e30.e30" dTokOk rfl (Or.inl rfl)

/-- Claim C4, counterexample: `decodeJwt` enforces no upper bound on the
segment count. The token `"e30.e30.e30.e30"` splits into four segments,
yet in `envOk` it decodes (the fourth segment is ignored) and `auth` even
returns its claims — refuting that every token with other than exactly
three segments fails decoding and yields absent. -/
theorem segment_count_not_enforced :
    (splitOnDot "e30.e30.e30.e30".data).length = 4 ∧
    (auth envOk "p" (some "e30.e30.e30.e30") []).1 = some megaClaims :=
  ⟨rfl, rfl⟩

/-- Claim C4, amended: every token with fewer than three segments fails
decoding (the missing segment is an out-of-range `undefined` whose use
throws, when an earlier base64/JSON step has not already thrown) and
`auth` returns `none`; segments beyond the third are ignored, not
rejected. -/
theorem fewer_than_three_segments_rejected (env : Env) (pid : String)
    (checks : List (JsValue → Bool)) (t : String)
    (h : (splitOnDot t.data).length < 3) :
    (∃ e, decodeJwt env.jsonParse t = .error e) ∧
    (auth env pid (some t) checks).1 = none := by
  have hdecErr : ∃ e, decodeJwt env.jsonParse t = .error e := by
    cases hdec : decodeJwt env.jsonParse t with
    | error e => exact ⟨e, rfl⟩
    | ok d =>
      exfalso
      obtain ⟨-, -, hg2, -⟩ := decodeJwt_ok_structure _ _ _ hdec
      have hnone : ((splitOnDot t.data).map String.mk).get? 2 = none :=
        List.get?_eq_none.2 (by simp; omega)
      rw [hnone] at hg2
      exact Option.noConfusion hg2
  refine ⟨hdecErr, ?_⟩
  by_cases ht : t = ""
  · subst ht; rfl
  · obtain ⟨e, he⟩ := hdecErr
    show ((authTry env pid (some t) checks).1).toOption = none
    simp [authTry, ht, he, Except.toOption]

/-- Claim C4 (amended), witnessed: the two-segment token `"a.b"` fails
decoding and is rejected (via the theorem), and the four-segment
`"a.b.c.d"` is also rejected — for its illegal base64 segments, not its
segment count. -/
theorem fewer_than_three_segments_rejected_witness :
    ((∃ e, decodeJwt envOk.jsonParse "a.b" = .error e) ∧
      (auth envOk "p" (some "a.b") []).1 = none) ∧
    (auth envOk "p" (some "a.b.c.d") []).1 = none :=
  ⟨fewer_than_three_segments_rejected envOk "p" [] "a.b" (by decide), rfl⟩

/-- Claim C5, counterexample: in `envFetch` the fetch response has a key
list and NO `cache-control` header, yet the key list is stored with the
explicit TTL `3600` (the `cacheKey` default parameter), not with "no
explicit TTL" as claimed. -/
theorem absent_cache_control_gets_explicit_ttl :
    envFetch.fetch = .ok ⟨some [jwk1], none⟩ ∧
    (getGooglePk envFetch (some (.str "k1"))).2.putCalls =
      [⟨"google_pk", .arr [jwk1], some 3600⟩] :=
  ⟨rfl, rfl⟩

/-- Claim C5, amended: on a cache miss with a fetched key list, the list
is stored under `"google_pk"` with TTL `max-age − 120` when the header
matches `max-age=N` and `N − 120 > 0`, with no explicit TTL when it
matches but `N − 120 ≤ 0`, and with the explicit default TTL `3600` when
the header is absent or does not match (`ttlModel`); a response without a
key list is never cached. -/
theorem fetched_keys_cached_ttl (env : Env) (kid : Option JsValue) (resp : FetchResp)
    (h1 : env.cacheGet = .ok none) (h2 : env.fetch = .ok resp)
    (h3 : env.putResult = .ok ()) :
    (∀ l, resp.keys = some l →
      (getGooglePk env kid).2.putCalls =
        [⟨"google_pk", .arr l, ttlModel resp.cacheControl⟩]) ∧
    (resp.keys = none → (getGooglePk env kid).2.putCalls = []) := by
  constructor
  · intro l hl
    unfold ttlModel
    cases hma : findMaxAge (resp.cacheControl.getD "") with
    | none =>
        simp [getGooglePk, h1, h2, h3, hl, hma, cacheKey, jsTruthy, jsTruthyOpt, getProp]
    | some n =>
        by_cases hpos : 0 < (n : Int) - 120 <;>
          simp [getGooglePk, h1, h2, h3, hl, hma, cacheKey, jsTruthy, jsTruthyOpt,
            getProp, hpos]
  · intro hl
    simp [getGooglePk, h1, h2, hl]

/-- Claim C5 (amended), witnessed: with no `cache-control` header the
stored TTL is `ttlModel none` (= explicit 3600); with
`public, max-age=3600` it is `ttlModel (some ...)` (= 3480). -/
theorem fetched_keys_cached_ttl_witness :
    (getGooglePk envFetch (some (.str "k1"))).2.putCalls =
      [⟨"google_pk", .arr [jwk1], ttlModel none⟩] ∧
    (getGooglePk envFetchCC (some (.str "k1"))).2.putCalls =
      [⟨"google_pk", .arr [jwk1], ttlModel (some "public, max-age=3600")⟩] :=
  ⟨(fetched_keys_cached_ttl envFetch (some (.str "k1")) ⟨some [jwk1], none⟩
      rfl rfl rfl).1 [jwk1] rfl,
   (fetched_keys_cached_ttl envFetchCC (some (.str "k1"))
      ⟨some [jwk1], some "public, max-age=3600"⟩ rfl rfl rfl).1 [jwk1] rfl⟩

/-- Claim C6: each standard predicate evaluates to `false` — it does not
throw; in the embedding it is a total `Bool` function — whenever the
named claim is absent or has the wrong type: a non-number for
`InFuture`/`InPast`, a non-string for `NotEmpty`, and for `Equals` any
value that is not the expected string. -/
theorem predicate_missing_or_wrong_type_is_false (now : Int) (claims : JsValue)
    (key expected : String) :
    ((∀ n : Int, getProp claims key ≠ some (.num n)) →
      InFuture now key claims = false ∧ InPast now key claims = false) ∧
    ((∀ s : String, getProp claims key ≠ some (.str s)) →
      NotEmpty key claims = false) ∧
    ((∀ s : String, getProp claims key = some (.str s) → ¬s = expected) →
      Equals key expected claims = false) := by
  refine ⟨?_, ?_, ?_⟩ <;> intro hyp
  · cases hg : getProp claims key with
    | none => simp [InFuture, InPast, hg]
    | some v =>
      cases v with
      | num n => exact absurd hg (hyp n)
      | null => simp [InFuture, InPast, hg]
      | bool b => simp [InFuture, InPast, hg]
      | str s => simp [InFuture, InPast, hg]
      | arr xs => simp [InFuture, InPast, hg]
      | obj fs => simp [InFuture, InPast, hg]
  · cases hg : getProp claims key with
    | none => simp [NotEmpty, hg]
    | some v =>
      cases v with
      | str s => exact absurd hg (hyp s)
      | null => simp [NotEmpty, hg]
      | bool b => simp [NotEmpty, hg]
      | num n => simp [NotEmpty, hg]
      | arr xs => simp [NotEmpty, hg]
      | obj fs => simp [NotEmpty, hg]
  · cases hg : getProp claims key with
    | none => simp [Equals, hg]
    | some v =>
      cases v with
      | str s =>
        simp [Equals, hg]
        exact fun h => hyp s hg h.symm
      | null => simp [Equals, hg]
      | bool b => simp [Equals, hg]
      | num n => simp [Equals, hg]
      | arr xs => simp [Equals, hg]
      | obj fs => simp [Equals, hg]

/-- Claim C6, witnessed: on a claim map whose `exp` is the boolean `true`,
all four predicates evaluate to `false`, obtained through the theorem. -/
theorem predicate_missing_or_wrong_type_is_false_witness :
    InFuture 0 "exp" oddClaims = false ∧ InPast 0 "exp" oddClaims = false ∧
    NotEmpty "exp" oddClaims = false ∧ Equals "exp" "v" oddClaims = false := by
  obtain ⟨h1, h2, h3⟩ := predicate_missing_or_wrong_type_is_false 0 oddClaims "exp" "v"
  refine ⟨(h1 ?_).1, (h1 ?_).2, h2 ?_, h3 ?_⟩
  · intro n h; simp [oddClaims, getProp, lookupField] at h
  · intro n h; simp [oddClaims, getProp, lookupField] at h
  · intro s h; simp [oddClaims, getProp, lookupField] at h
  · intro s h; simp [oddClaims, getProp, lookupField] at h

/-- Claim C7: when the cache holds a key set, `getGooglePk` performs no
fetch and no cache write (`fetches = 0`, `putCalls = []`, one cache read)
and returns the first cached record whose `kid` loosely equals the
token's, or `none` when no cached record matches — it does not refetch
for a possibly rotated key. -/
theorem cached_hit_no_fetch_no_write (env : Env) (kid : Option JsValue)
    (l : List JsValue) (h : env.cacheGet = .ok (some l)) :
    getGooglePk env kid =
      (.ok (l.find? (fun x => jsEqLooseOpt (getProp x "kid") kid)), ⟨0, 1, 0, []⟩) ∧
    ((∀ x ∈ l, jsEqLooseOpt (getProp x "kid") kid = false) →
      (getGooglePk env kid).1 = .ok none) := by
  have hg : getGooglePk env kid =
      (.ok (l.find? (fun x => jsEqLooseOpt (getProp x "kid") kid)), ⟨0, 1, 0, []⟩) := by
    simp [getGooglePk, h]
  refine ⟨hg, fun hnone => ?_⟩
  have hfind : l.find? (fun x => jsEqLooseOpt (getProp x "kid") kid) = none :=
    List.find?_eq_none.2 (fun x hx => by simp [hnone x hx])
  rw [hg, hfind]

/-- Claim C7, witnessed: with `[jwk1]` cached, the lookup for kid `"k1"`
returns `jwk1` with one cache read, zero fetches and zero writes. -/
theorem cached_hit_no_fetch_no_write_witness :
    getGooglePk envOk (some (.str "k1")) = (.ok (some jwk1), ⟨0, 1, 0, []⟩) :=
  ((cached_hit_no_fetch_no_write envOk (some (.str "k1")) [jwk1] rfl).1).trans rfl

theorem replaceAll_comp (s : String) :
    replaceAllChar (replaceAllChar s '_' '/') '-' '+' = String.mk (s.data.map trChar) := by
  simp only [replaceAllChar, List.map_map]
  congr 1
  apply List.map_congr_left
  intro c _
  by_cases h1 : c = '_' <;> by_cases h2 : c = '-' <;>
    simp [trChar, Function.comp, h1, h2]

/-- Claim C8: `decodeBase64` first maps `-`→`+` and `_`→`/` (`trChar`,
leaving every other character fixed), then reconstructs padding from the
input length modulo 4 — remainder 0: none, remainder 2: `"=="`,
remainder 3: `"="` — before standard base64 decoding with `atob`, and
aborts with the illegal-encoding error on remainder 1 instead of
decoding a truncation. -/
theorem decodeBase64_spec (s : String) :
    (s.data.length % 4 = 0 → decodeBase64 s = atob (String.mk (s.data.map trChar))) ∧
    (s.data.length % 4 = 2 → decodeBase64 s = atob (String.mk (s.data.map trChar) ++ "==")) ∧
    (s.data.length % 4 = 3 → decodeBase64 s = atob (String.mk (s.data.map trChar) ++ "=")) ∧
    (s.data.length % 4 = 1 → decodeBase64 s = .error .illegalBase64) ∧
    trChar '-' = '+' ∧ trChar '_' = '/' ∧ ∀ c, ¬c = '-' → ¬c = '_' → trChar c = c := by
  refine ⟨?_, ?_, ?_, ?_, rfl, rfl, ?_⟩
  · intro h; simp only [decodeBase64, h, replaceAll_comp]
  · intro h; simp only [decodeBase64, h, replaceAll_comp]
  · intro h; simp only [decodeBase64, h, replaceAll_comp]
  · intro h; simp only [decodeBase64, h]
  · intro c h1 h2; simp [trChar, h1, h2]

/-- Claim C8, witnessed: the length-1 input `"a"` aborts with the
illegal-encoding error, and the length-3 input `"e30"` is handed to
`atob` with one `=` appended. -/
theorem decodeBase64_spec_witness :
    decodeBase64 "a" = .error .illegalBase64 ∧
    decodeBase64 "e30" = atob (String.mk ("e30".data.map trChar) ++ "=") :=
  ⟨(decodeBase64_spec "a").2.2.2.1 rfl, (decodeBase64_spec "e30").2.2.1 rfl⟩

/-- Claim C9: `validateClaims` is the conjunction (a fold of `&&`) of its
predicates applied to the claim map, the empty predicate list validates
to `true`, and consequently an `auth` call that succeeds with any
caller-supplied predicate list also succeeds with the empty list — an
empty `claimChecks` never causes rejection. -/
theorem validateClaims_conjunction :
    (∀ (claims : JsValue) (conds : List (JsValue → Bool)),
      validateClaims claims conds = conds.foldr (fun c acc => c claims && acc) true) ∧
    (∀ claims : JsValue, validateClaims claims [] = true) ∧
    (∀ (env : Env) (pid : String) (token : Option String)
        (checks : List (JsValue → Bool)) (m : JsValue),
      (auth env pid token checks).1 = some m → (auth env pid token []).1 = some m) := by
  refine ⟨?_, fun _ => rfl, ?_⟩
  · intro claims conds
    induction conds with
    | nil => rfl
    | cons c cs ih => simp [validateClaims, List.all_cons] at ih ⊢; rw [ih]
  · intro env pid token checks m h
    rw [show (auth env pid token []).1 = ((authTry env pid token []).1).toOption from rfl,
      except_toOption_eq_some, authTry_ok_iff]
    rw [show (auth env pid token checks).1 = ((authTry env pid token checks).1).toOption
      from rfl, except_toOption_eq_some, authTry_ok_iff] at h
    obtain ⟨t, d, jwk, key, htok, ht, hdec, h1, h2, h3, hpk, himp, hver, hm⟩ := h
    exact ⟨t, d, jwk, key, htok, ht, hdec, h1, h2, rfl, hpk, himp, hver, hm⟩

/-- Claim C9, witnessed: a run that succeeds with the nonempty check list
`[NotEmpty "sub"]` also succeeds with the empty list, via the theorem. -/
theorem validateClaims_conjunction_witness :
    (auth envOk "p" (some "e30.e30.e30") []).1 = some megaClaims :=
  validateClaims_conjunction.2.2 envOk "p" (some "e30.e30.e30")
    [NotEmpty "sub"] megaClaims rfl

/-- Claim C10: with the empty-string token (and likewise the missing
token) `auth` short-circuits at the falsy-token guard: the result is
`none` and the effect trace is empty — no decode is attempted, the cache
is never read, nothing is fetched, nothing is written. -/
theorem falsy_token_short_circuits (env : Env) (pid : String)
    (checks : List (JsValue → Bool)) :
    auth env pid (some "") checks = (none, noEffects) ∧
    auth env pid none checks = (none, noEffects) :=
  ⟨rfl, rfl⟩
